import Mathlib

/-
Verification of the fuzzy inference engine underlying the tipping
application in `streamlit_app.py`.  All numeric computation is embedded
over the rationals: every quantity in the source (universe samples,
membership degrees, firing strengths, centroid) is a ratio of the
integer-valued inputs, so the embedding is exact.

Definitions translated from the source are named after the corresponding
Python names.  Where the behaviour is decided by library internals
(scikit-fuzzy / numpy) that are not part of the repository, the
definition carries a doc comment starting `Modelled from the spec:`.
-/

namespace FuzzyTips

/-- Universe for food quality, `np.arange(0, 11, 1)` (source line 14). -/
def quality_range : List ℚ := [0, 1, 2, 3, 4, 5, 6, 7, 8, 9, 10]

/-- Universe for service, `np.arange(0, 11, 1)` (source line 15). -/
def service_range : List ℚ := [0, 1, 2, 3, 4, 5, 6, 7, 8, 9, 10]

/-- Universe for the tip, `np.arange(0, 26, 1)` (source line 16). -/
def tip_range : List ℚ :=
  [0, 1, 2, 3, 4, 5, 6, 7, 8, 9, 10, 11, 12, 13, 14, 15, 16, 17, 18, 19,
   20, 21, 22, 23, 24, 25]

/-- Pointwise value of the triangular membership function
`fuzz.trimf(x, [a, b, c])` at one point: 1 at the apex `b`, linear ramps
`(x-a)/(b-a)` on `(a,b)` and `(c-x)/(c-b)` on `(b,c)`, 0 outside.  The
degenerate sides `a = b` and `b = c` perform no division: the guarded
ramp branches are then unreachable, and the apex test fires first. -/
def trimfVal (a b c x : ℚ) : ℚ :=
  if x = b then 1
  else if x < b then (if a < x then (x - a) / (b - a) else 0)
  else if x < c then (c - x) / (c - b)
  else 0

/-- `fuzz.trimf(xs, [a, b, c])`: the triangular function sampled over the
universe `xs`. -/
def trimf (xs : List ℚ) (a b c : ℚ) : List ℚ := xs.map (trimfVal a b c)

/-- `quality_low = fuzz.trimf(quality_range, [0, 0, 5])` (line 20). -/
def quality_low : List ℚ := trimf quality_range 0 0 5

/-- `quality_medium = fuzz.trimf(quality_range, [0, 5, 10])` (line 21). -/
def quality_medium : List ℚ := trimf quality_range 0 5 10

/-- `quality_high = fuzz.trimf(quality_range, [5, 10, 10])` (line 22). -/
def quality_high : List ℚ := trimf quality_range 5 10 10

/-- `service_low = fuzz.trimf(service_range, [0, 0, 5])` (line 25). -/
def service_low : List ℚ := trimf service_range 0 0 5

/-- `service_medium = fuzz.trimf(service_range, [0, 5, 10])` (line 26). -/
def service_medium : List ℚ := trimf service_range 0 5 10

/-- `service_high = fuzz.trimf(service_range, [5, 10, 10])` (line 27). -/
def service_high : List ℚ := trimf service_range 5 10 10

/-- `tip_low = fuzz.trimf(tip_range, [0, 0, 13])` (line 30). -/
def tip_low : List ℚ := trimf tip_range 0 0 13

/-- `tip_medium = fuzz.trimf(tip_range, [0, 13, 25])` (line 31). -/
def tip_medium : List ℚ := trimf tip_range 0 13 25

/-- `tip_high = fuzz.trimf(tip_range, [13, 25, 25])` (line 32). -/
def tip_high : List ℚ := trimf tip_range 13 25 25

/-- `fuzz.interp_membership(x_range, mf, value)`: linear interpolation of
the sampled curve `(xs, ys)` at `value`, clamping to the boundary sample
outside the universe (numpy `interp` semantics, as required by the spec:
"value below/above universe bounds clamps to the boundary sample's
degree"). -/
def interp_membership : List ℚ → List ℚ → ℚ → ℚ
  | x1 :: x2 :: xs, y1 :: y2 :: ys, v =>
      if v ≤ x1 then y1
      else if v ≤ x2 then y1 + (y2 - y1) * (v - x1) / (x2 - x1)
      else interp_membership (x2 :: xs) (y2 :: ys) v
  | _ :: _, y :: _, _ => y
  | _, _, _ => 0

/-- `get_membership_values(x_range, functions, value)` (lines 42-43). -/
def get_membership_values (x_range : List ℚ) (functions : List (List ℚ))
    (value : ℚ) : List ℚ :=
  functions.map (fun mf => interp_membership x_range mf value)

/- --- Manual fuzzy inference path (lines 97-112) --- -/

/-- `qual_lo = fuzz.interp_membership(quality_range, quality_low, quality_score)` (line 97). -/
def qual_lo (quality_score : ℚ) : ℚ :=
  interp_membership quality_range quality_low quality_score

/-- Line 98. -/
def qual_md (quality_score : ℚ) : ℚ :=
  interp_membership quality_range quality_medium quality_score

/-- Line 99. -/
def qual_hi (quality_score : ℚ) : ℚ :=
  interp_membership quality_range quality_high quality_score

/-- Line 101. -/
def serv_lo (service_score : ℚ) : ℚ :=
  interp_membership service_range service_low service_score

/-- Line 102. -/
def serv_md (service_score : ℚ) : ℚ :=
  interp_membership service_range service_medium service_score

/-- Line 103. -/
def serv_hi (service_score : ℚ) : ℚ :=
  interp_membership service_range service_high service_score

/-- `np.fmax` on two scalars: the larger of the two. -/
def fmax (a b : ℚ) : ℚ := if a ≤ b then b else a

/-- `np.fmin` on two scalars: the smaller of the two. -/
def fmin (a b : ℚ) : ℚ := if a ≤ b then a else b

/-- `active_rule1 = np.fmax(qual_lo, serv_lo)` (line 106). -/
def active_rule1 (q s : ℚ) : ℚ := fmax (qual_lo q) (serv_lo s)

/-- `np.fmin(scalar, array)`: elementwise minimum of a scalar against a
sampled curve. -/
def fminScalar (s : ℚ) (ys : List ℚ) : List ℚ := ys.map (fun y => fmin s y)

/-- `tip_activation_lo = np.fmin(active_rule1, tip_low)` (line 107). -/
def tip_activation_lo (q s : ℚ) : List ℚ := fminScalar (active_rule1 q s) tip_low

/-- `tip_activation_md = np.fmin(serv_md, tip_medium)` (line 109). -/
def tip_activation_md (s : ℚ) : List ℚ := fminScalar (serv_md s) tip_medium

/-- `active_rule3 = np.fmax(qual_hi, serv_hi)` (line 111). -/
def active_rule3 (q s : ℚ) : ℚ := fmax (qual_hi q) (serv_hi s)

/-- `tip_activation_hi = np.fmin(active_rule3, tip_high)` (line 112). -/
def tip_activation_hi (q s : ℚ) : List ℚ := fminScalar (active_rule3 q s) tip_high

/- --- Library-object inference path (lines 197-227) ---
The rule objects are built in the source; their evaluation lives in
scikit-fuzzy, outside the repository, so the engine below is modelled
from the spec (sections 4.3-4.5). -/

/-- Fuzzy AND, fixed Zadeh/Mamdani semantics: `np.fmin` on scalar
degrees. -/
def fuzzyAnd (a b : ℚ) : ℚ := fmin a b

/-- Fuzzy OR, fixed Zadeh/Mamdani semantics: `np.fmax` on scalar degrees
(source line 106). -/
def fuzzyOr (a b : ℚ) : ℚ := fmax a b

/-- Fuzzy NOT. -/
def fuzzyNot (a : ℚ) : ℚ := 1 - a

/-- Modelled from the spec: a rule antecedent is an expression tree whose
leaves are (variable, label) pairs and whose internal nodes are
AND/OR/NOT (section 4.3); the tree built by `ctrl.Rule` in scikit-fuzzy
is not repository code. -/
inductive FExpr where
  | leaf (var label : String)
  | conj (l r : FExpr)
  | disj (l r : FExpr)
  | neg (e : FExpr)

/-- Evaluation of an antecedent tree against a fuzzified-degree table
`μ : variable → label → degree`, using the fixed operator semantics. -/
def FExpr.eval (μ : String → String → ℚ) : FExpr → ℚ
  | .leaf var label => μ var label
  | .conj l r => fuzzyAnd (l.eval μ) (r.eval μ)
  | .disj l r => fuzzyOr (l.eval μ) (r.eval μ)
  | .neg e => fuzzyNot (e.eval μ)

/-- Modelled from the spec: a rule pairs an antecedent tree with one
consequent (variable, label) pair and a weight, default 1 (section
4.3). -/
structure Rule where
  antecedent : FExpr
  consequentVar : String
  consequentLabel : String
  weight : ℚ

/-- Modelled from the spec: rule firing strength = weight × evaluate
(antecedent tree) (section 4.3). -/
def firingStrength (μ : String → String → ℚ) (r : Rule) : ℚ :=
  r.weight * r.antecedent.eval μ

/-- Modelled from the spec: Mamdani min-implication clips the
consequent's sampled curve at the firing strength (section 4.4);
identical to `np.fmin` in the manual path. -/
def ruleActivation (μ : String → String → ℚ) (curveOf : String → String → List ℚ)
    (r : Rule) : List ℚ :=
  fminScalar (firingStrength μ r) (curveOf r.consequentVar r.consequentLabel)

/-- Modelled from the spec: aggregation is the pointwise maximum of the
activation curves over the `n`-point consequent universe (section
4.4). -/
def aggregate (n : ℕ) (curves : List (List ℚ)) : List ℚ :=
  (List.range n).map (fun i => (curves.map (fun c => c.getD i 0)).foldr fmax 0)

/-- Modelled from the spec: centroid defuzzification,
`Σ(x_i · aggregated(x_i)) / Σ(aggregated(x_i))` over the universe
samples (section 4.5). -/
def centroid (xs ys : List ℚ) : ℚ :=
  (List.zipWith (fun a b => a * b) xs ys).sum / ys.sum

/-- A unit-step universe of `n` samples starting at `x0`
(`np.arange(x0, x0 + n, 1)`), used to state the symmetric-triangle
centroid property over an arbitrary discretized range. -/
def unitUniverse (x0 : ℚ) (n : ℕ) : List ℚ :=
  (List.range n).map (fun i : ℕ => x0 + (i : ℚ))

/-- The fuzzified-degree table the engine computes from the crisp inputs
via `interp_membership` (lines 223-224 feed the simulation inputs;
fuzzification per spec section 4.2). -/
def tippingEnv (q s : ℚ) : String → String → ℚ := fun var label =>
  if var = "quality" then
    if label = "low" then qual_lo q
    else if label = "medium" then qual_md q
    else if label = "high" then qual_hi q
    else 0
  else if var = "service" then
    if label = "low" then serv_lo s
    else if label = "medium" then serv_md s
    else if label = "high" then serv_hi s
    else 0
  else 0

/-- The sampled membership curves registered for the consequent variable
`tip` (lines 211-213). -/
def tipCurves : String → String → List ℚ := fun var label =>
  if var = "tip" then
    if label = "low" then tip_low
    else if label = "medium" then tip_medium
    else if label = "high" then tip_high
    else []
  else []

/-- `rule1 = ctrl.Rule(quality['low'] | service['low'], tip['low'])` (line 216). -/
def rule1 : Rule :=
  Rule.mk (FExpr.disj (FExpr.leaf "quality" "low") (FExpr.leaf "service" "low"))
    "tip" "low" 1

/-- `rule2 = ctrl.Rule(service['medium'], tip['medium'])` (line 217). -/
def rule2 : Rule :=
  Rule.mk (FExpr.leaf "service" "medium") "tip" "medium" 1

/-- `rule3 = ctrl.Rule(service['high'] | quality['high'], tip['high'])` (line 218). -/
def rule3 : Rule :=
  Rule.mk (FExpr.disj (FExpr.leaf "service" "high") (FExpr.leaf "quality" "high"))
    "tip" "high" 1

/-- The rule base `ctrl.ControlSystem([rule1, rule2, rule3])` (line 220). -/
def tippingRules : List Rule := [rule1, rule2, rule3]

/-- The aggregated output curve for `tip` produced by
`tipping_sim.compute()` at crisp inputs `(q, s)` (lines 220-225):
fuzzify, fire every rule, clip, aggregate pointwise. -/
def aggregatedTip (q s : ℚ) : List ℚ :=
  aggregate 26 (tippingRules.map (ruleActivation (tippingEnv q s) tipCurves))

/-- The crisp output `tipping_sim.output['tip']` (line 227): centroid of
the aggregated curve over the tip universe. -/
def computeTip (q s : ℚ) : ℚ :=
  centroid tip_range (aggregatedTip q s)

/-- Modelled from the spec: the per-invocation simulation session state
(section 3, Simulation/Session): the fuzzified-degree table, the
aggregated output buffer and the last crisp output. -/
structure SimState where
  fuzzified : List ℚ
  aggregated : List ℚ
  lastOutput : Option ℚ

/-- Modelled from the spec: one `compute` invocation (section 4.5, state
machine).  Every buffer of the session is rebuilt from the configuration
and the crisp inputs alone; the incoming state is discarded, never
read. -/
def computeSim (q s : ℚ) (st : SimState) : ℚ × SimState :=
  match st with
  | _ =>
    let fz : List ℚ := [qual_lo q, qual_md q, qual_hi q, serv_lo s, serv_md s, serv_hi s]
    let agg : List ℚ := aggregatedTip q s
    let out : ℚ := centroid tip_range agg
    (out, SimState.mk fz agg (some out))

/-- Modelled from the spec: fuzzification with the domain check of
section 4.2 — fails (returns `none`, the `DomainError` case) when the
crisp value lies outside the universe bounds, otherwise returns every
label's interpolated degree. -/
def fuzzifyChecked (xs : List ℚ) (mfs : List (List ℚ)) (v : ℚ) : Option (List ℚ) :=
  if xs ≠ [] ∧ xs.headD 0 ≤ v ∧ v ≤ xs.getLastD 0 then
    some (get_membership_values xs mfs v)
  else none

/- --- Helper lemmas --- -/

theorem fmax_eq_max (a b : ℚ) : fmax a b = max a b := by
  unfold fmax
  split_ifs with h
  · exact (max_eq_right h).symm
  · exact (max_eq_left (le_of_not_le h)).symm

theorem fmin_eq_min (a b : ℚ) : fmin a b = min a b := by
  unfold fmin
  split_ifs with h
  · exact (min_eq_left h).symm
  · exact (min_eq_right (le_of_not_le h)).symm

theorem trimfVal_nonneg (a b c x : ℚ) : 0 ≤ trimfVal a b c x := by
  unfold trimfVal
  split_ifs with h1 h2 h3 h4
  · norm_num
  · have hden : 0 < b - a := by linarith
    have hnum : 0 ≤ x - a := by linarith
    positivity
  · norm_num
  · have hbx : b < x := lt_of_le_of_ne (not_lt.mp h2) (Ne.symm h1)
    have hden : 0 < c - b := by linarith
    have hnum : 0 ≤ c - x := by linarith
    positivity
  · norm_num

theorem trimfVal_le_one (a b c x : ℚ) : trimfVal a b c x ≤ 1 := by
  unfold trimfVal
  split_ifs with h1 h2 h3 h4
  · norm_num
  · have hden : 0 < b - a := by linarith
    rw [div_le_one hden]
    linarith
  · norm_num
  · have hbx : b < x := lt_of_le_of_ne (not_lt.mp h2) (Ne.symm h1)
    have hden : 0 < c - b := by linarith
    rw [div_le_one hden]
    linarith
  · norm_num

theorem trimfVal_apex (a b c : ℚ) : trimfVal a b c b = 1 := by
  simp [trimfVal]

theorem trimfVal_left_zero (a b c x : ℚ) (hxa : x ≤ a) (hab : a < b) :
    trimfVal a b c x = 0 := by
  unfold trimfVal
  rw [if_neg (by intro h; rw [h] at hxa; linarith), if_pos (by linarith),
    if_neg (not_lt.mpr hxa)]

theorem trimfVal_right_zero (a b c x : ℚ) (hcx : c ≤ x) (hbc : b < c) :
    trimfVal a b c x = 0 := by
  unfold trimfVal
  rw [if_neg (by intro h; rw [h] at hcx; linarith),
    if_neg (by push_neg; linarith), if_neg (by push_neg; linarith)]

theorem trimfVal_mono (a b c x y : ℚ) (hax : a ≤ x) (hxy : x ≤ y) (hyb : y ≤ b) :
    trimfVal a b c x ≤ trimfVal a b c y := by
  rcases eq_or_lt_of_le hyb with rfl | hyb'
  · rw [trimfVal_apex]
    exact trimfVal_le_one _ _ _ _
  · have hxb : x < b := lt_of_le_of_lt hxy hyb'
    unfold trimfVal
    rw [if_neg (ne_of_lt hxb), if_pos hxb, if_neg (ne_of_lt hyb'), if_pos hyb']
    by_cases hay : a < y
    · rw [if_pos hay]
      by_cases hax' : a < x
      · rw [if_pos hax']
        have hden : 0 < b - a := by linarith
        exact (div_le_div_right hden).mpr (by linarith)
      · rw [if_neg hax']
        exact div_nonneg (by linarith) (by linarith)
    · rw [if_neg hay, if_neg (fun h => hay (lt_of_lt_of_le h hxy))]

theorem trimfVal_anti (a b c x y : ℚ) (hbx : b ≤ x) (hxy : x ≤ y) (hyc : y ≤ c) :
    trimfVal a b c y ≤ trimfVal a b c x := by
  rcases eq_or_lt_of_le hbx with rfl | hbx'
  · rw [trimfVal_apex]
    exact trimfVal_le_one _ _ _ _
  · have hby : b < y := lt_of_lt_of_le hbx' hxy
    unfold trimfVal
    rw [if_neg (ne_of_gt hby), if_neg (not_lt.mpr (le_of_lt hby)),
      if_neg (ne_of_gt hbx'), if_neg (not_lt.mpr (le_of_lt hbx'))]
    by_cases hyc' : y < c
    · rw [if_pos hyc', if_pos (lt_of_le_of_lt hxy hyc')]
      have hden : 0 < c - b := by linarith
      have hnum : c - y ≤ c - x := by linarith
      exact (div_le_div_right hden).mpr hnum
    · rw [if_neg hyc']
      by_cases hxc : x < c
      · rw [if_pos hxc]
        exact div_nonneg (by linarith) (by linarith)
      · rw [if_neg hxc]

/-- C2 (amended): for triangular parameters a ≤ b ≤ c the sampled shape
function satisfies: value 1 at the apex b; value 0 at a, at c, and
outside [a, c], provided the corresponding side is non-degenerate
(a < b, respectively b < c); monotone non-decreasing on [a, b]; monotone
non-increasing on [b, c]; and every value lies in [0, 1].  The original
claim asserted evaluate(a) = 0 and evaluate(c) = 0 unconditionally,
which fails on the degenerate shoulder a = b (see the counterexample):
there the flat side evaluates to 1. -/
theorem C2_triangular_shape_amended (a b c x y : ℚ) (hab : a ≤ b) (hbc : b ≤ c) :
    trimfVal a b c b = 1 ∧
    (a < b → trimfVal a b c a = 0) ∧
    (b < c → trimfVal a b c c = 0) ∧
    (x ≤ a → a < b → trimfVal a b c x = 0) ∧
    (c ≤ x → b < c → trimfVal a b c x = 0) ∧
    (a ≤ x → x ≤ y → y ≤ b → trimfVal a b c x ≤ trimfVal a b c y) ∧
    (b ≤ x → x ≤ y → y ≤ c → trimfVal a b c y ≤ trimfVal a b c x) ∧
    0 ≤ trimfVal a b c x ∧ trimfVal a b c x ≤ 1 :=
  ⟨trimfVal_apex a b c,
   fun h => trimfVal_left_zero a b c a (le_refl a) h,
   fun h => trimfVal_right_zero a b c c (le_refl c) h,
   fun hx h => trimfVal_left_zero a b c x hx h,
   fun hx h => trimfVal_right_zero a b c x hx h,
   fun h1 h2 h3 => trimfVal_mono a b c x y h1 h2 h3,
   fun h1 h2 h3 => trimfVal_anti a b c x y h1 h2 h3,
   trimfVal_nonneg a b c x, trimfVal_le_one a b c x⟩

/-- C2 witness: the amended statement applied at the concrete
non-degenerate triangle [0, 5, 10] and points x = 3, y = 4. -/
theorem C2_triangular_shape_witness :
    (0:ℚ) ≤ 5 ∧ (5:ℚ) ≤ 10 ∧
    (trimfVal 0 5 10 5 = 1 ∧
     ((0:ℚ) < 5 → trimfVal 0 5 10 0 = 0) ∧
     ((5:ℚ) < 10 → trimfVal 0 5 10 10 = 0) ∧
     ((3:ℚ) ≤ 0 → (0:ℚ) < 5 → trimfVal 0 5 10 3 = 0) ∧
     ((10:ℚ) ≤ 3 → (5:ℚ) < 10 → trimfVal 0 5 10 3 = 0) ∧
     ((0:ℚ) ≤ 3 → (3:ℚ) ≤ 4 → (4:ℚ) ≤ 5 → trimfVal 0 5 10 3 ≤ trimfVal 0 5 10 4) ∧
     ((5:ℚ) ≤ 3 → (3:ℚ) ≤ 4 → (4:ℚ) ≤ 10 → trimfVal 0 5 10 4 ≤ trimfVal 0 5 10 3) ∧
     0 ≤ trimfVal 0 5 10 3 ∧ trimfVal 0 5 10 3 ≤ 1) :=
  ⟨by norm_num, by norm_num,
   C2_triangular_shape_amended 0 5 10 3 4 (by norm_num) (by norm_num)⟩

/-- C2 counterexample: the program's own degenerate triangle
quality_low = [0, 0, 5] has a = b = 0 ≤ c = 5, yet evaluating at a gives
1, not 0, refuting the claim "evaluate(a) = 0" for every a ≤ b ≤ c. -/
theorem C2_degenerate_endpoint_not_zero :
    (0:ℚ) ≤ 0 ∧ (0:ℚ) ≤ 5 ∧ trimfVal 0 0 5 0 = 1 ∧ (1:ℚ) ≠ 0 :=
  ⟨le_refl 0, by norm_num, trimfVal_apex 0 0 5, by norm_num⟩

/-- C3: the crisp input quality = 0, lying exactly at the lower universe
endpoint, passes the domain check (no DomainError: the checked fuzzifier
returns `some`), and fuzzifies to quality_low = 1, quality_medium = 0,
quality_high = 0; the degenerate sides a = b and b = c divide by nothing
and evaluate to 1 at the flat side. -/
theorem C3_boundary_input :
    fuzzifyChecked quality_range [quality_low, quality_medium, quality_high] 0 =
      some [1, 0, 0] ∧
    qual_lo 0 = 1 ∧
    (∀ b c : ℚ, trimfVal b b c b = 1) ∧
    (∀ a b : ℚ, trimfVal a b b b = 1) := by
  refine ⟨?_, ?_, fun b c => trimfVal_apex b b c, fun a b => trimfVal_apex a b b⟩
  · norm_num [fuzzifyChecked, get_membership_values, quality_range, quality_low,
      quality_medium, quality_high, trimf, trimfVal, interp_membership]
    intro h
    simp at h
  · norm_num [qual_lo, quality_range, quality_low, trimf, trimfVal,
      interp_membership]

theorem getD_fminScalar (s : ℚ) : ∀ (ys : List ℚ) (i : ℕ), i < ys.length →
    (fminScalar s ys).getD i 0 = fmin s (ys.getD i 0)
  | _ :: _, 0, _ => rfl
  | _ :: ys, i + 1, h => getD_fminScalar s ys i (by simpa using h)

theorem tipCurves_low : tipCurves "tip" "low" = tip_low := rfl

theorem tipCurves_medium : tipCurves "tip" "medium" = tip_medium := rfl

theorem tipCurves_high : tipCurves "tip" "high" = tip_high := rfl

theorem tip_medium_length : tip_medium.length = 26 := by
  rw [tip_medium, trimf, List.length_map, tip_range]
  rfl

/-- C4: the fuzzy operators have the fixed Zadeh/Mamdani semantics —
AND is the minimum, OR is the maximum, both are commutative and
associative — and a rule's firing strength is its weight times the
value of its antecedent tree under these operators. -/
theorem C4_operator_semantics :
    (∀ a b : ℚ, fuzzyAnd a b = min a b) ∧
    (∀ a b : ℚ, fuzzyOr a b = max a b) ∧
    (∀ a b : ℚ, fuzzyAnd a b = fuzzyAnd b a) ∧
    (∀ a b : ℚ, fuzzyOr a b = fuzzyOr b a) ∧
    (∀ a b c : ℚ, fuzzyAnd (fuzzyAnd a b) c = fuzzyAnd a (fuzzyAnd b c)) ∧
    (∀ a b c : ℚ, fuzzyOr (fuzzyOr a b) c = fuzzyOr a (fuzzyOr b c)) ∧
    (∀ (μ : String → String → ℚ) (r : Rule),
      firingStrength μ r = r.weight * FExpr.eval μ r.antecedent) := by
  refine ⟨fun a b => fmin_eq_min a b, fun a b => fmax_eq_max a b,
    ?_, ?_, ?_, ?_, fun μ r => rfl⟩
  · intro a b
    rw [fuzzyAnd, fuzzyAnd, fmin_eq_min, fmin_eq_min, min_comm]
  · intro a b
    rw [fuzzyOr, fuzzyOr, fmax_eq_max, fmax_eq_max, max_comm]
  · intro a b c
    simp only [fuzzyAnd, fmin_eq_min, min_assoc]
  · intro a b c
    simp only [fuzzyOr, fmax_eq_max, max_assoc]

/-- C5: Mamdani min-implication — for every rule, every fuzzified-degree
table and every index into the consequent's sampled universe, the rule's
activation curve at that index is the minimum of the firing strength and
the consequent curve's value there. -/
theorem C5_mamdani_implication (μ : String → String → ℚ)
    (curveOf : String → String → List ℚ) (r : Rule) (i : ℕ)
    (h : i < (curveOf r.consequentVar r.consequentLabel).length) :
    (ruleActivation μ curveOf r).getD i 0 =
      min (firingStrength μ r) ((curveOf r.consequentVar r.consequentLabel).getD i 0) := by
  rw [ruleActivation, getD_fminScalar _ _ _ h, fmin_eq_min]

/-- C5 witness: the implication equation at the concrete rule 2 of the
tipping system, inputs (5, 5), at universe index 13 (the apex of
tip_medium). -/
theorem C5_mamdani_implication_witness :
    13 < (tipCurves rule2.consequentVar rule2.consequentLabel).length ∧
    (ruleActivation (tippingEnv 5 5) tipCurves rule2).getD 13 0 =
      min (firingStrength (tippingEnv 5 5) rule2)
        ((tipCurves rule2.consequentVar rule2.consequentLabel).getD 13 0) :=
  ⟨by rw [show tipCurves rule2.consequentVar rule2.consequentLabel = tip_medium from
        tipCurves_medium, tip_medium_length]; norm_num,
   C5_mamdani_implication (tippingEnv 5 5) tipCurves rule2 13
     (by rw [show tipCurves rule2.consequentVar rule2.consequentLabel = tip_medium from
        tipCurves_medium, tip_medium_length]; norm_num)⟩

/-- C8: the engine is stateless and deterministic — one compute
invocation is a pure function of the configuration and the crisp inputs:
its result (crisp output and rebuilt session buffers) is identical for
any two incoming session states, and an immediately repeated call yields
the identical output. -/
theorem C8_stateless_compute : ∀ (q s : ℚ) (st1 st2 : SimState),
    computeSim q s st1 = computeSim q s st2 ∧
    (computeSim q s (computeSim q s st1).2).1 = (computeSim q s st1).1 :=
  fun _ _ _ _ => ⟨rfl, rfl⟩

/-- C9: for every input pair, the manual inference path of lines 97-112
(interp_membership, np.fmax for OR, np.fmin for implication) produces
exactly the same three firing strengths and the same three activation
curves as the rule objects of lines 216-218 evaluated by the engine. -/
theorem C9_paths_agree (q s : ℚ) :
    firingStrength (tippingEnv q s) rule1 = active_rule1 q s ∧
    firingStrength (tippingEnv q s) rule2 = serv_md s ∧
    firingStrength (tippingEnv q s) rule3 = active_rule3 q s ∧
    ruleActivation (tippingEnv q s) tipCurves rule1 = tip_activation_lo q s ∧
    ruleActivation (tippingEnv q s) tipCurves rule2 = tip_activation_md s ∧
    ruleActivation (tippingEnv q s) tipCurves rule3 = tip_activation_hi q s := by
  refine ⟨?_, ?_, ?_, ?_, ?_, ?_⟩ <;>
    simp [firingStrength, ruleActivation, rule1, rule2, rule3, FExpr.eval,
      fuzzyOr, tippingEnv, tipCurves, active_rule1, active_rule3,
      tip_activation_lo, tip_activation_md, tip_activation_hi, one_mul,
      fmax_eq_max, max_comm]

theorem foldr_fmax_nonneg : ∀ l : List ℚ, 0 ≤ l.foldr fmax 0
  | [] => le_refl 0
  | x :: l => by
    rw [List.foldr_cons, fmax_eq_max]
    exact le_max_of_le_right (foldr_fmax_nonneg l)

theorem le_foldr_fmax : ∀ (l : List ℚ) (a : ℚ), a ∈ l → a ≤ l.foldr fmax 0
  | x :: l, a, h => by
    rw [List.foldr_cons, fmax_eq_max]
    rcases List.mem_cons.mp h with rfl | h'
    · exact le_max_left a _
    · exact le_max_of_le_right (le_foldr_fmax l a h')

theorem foldr_fmax_le : ∀ (l : List ℚ) (b : ℚ), 0 ≤ b → (∀ a ∈ l, a ≤ b) →
    l.foldr fmax 0 ≤ b
  | [], _, hb, _ => hb
  | x :: l, b, hb, h => by
    rw [List.foldr_cons, fmax_eq_max]
    exact max_le (h x (List.mem_cons_self x l))
      (foldr_fmax_le l b hb fun a ha => h a (List.mem_cons_of_mem x ha))

theorem aggregate_getD (n : ℕ) (curves : List (List ℚ)) (i : ℕ) (h : i < n) :
    (aggregate n curves).getD i 0 =
      (curves.map (fun c => c.getD i 0)).foldr fmax 0 := by
  rw [aggregate, List.getD_eq_getElem?_getD, List.getElem?_map, List.getElem?_range h]
  rfl

theorem aggregate_length (n : ℕ) (curves : List (List ℚ)) :
    (aggregate n curves).length = n := by
  simp [aggregate]

theorem fminScalar_length (s : ℚ) (ys : List ℚ) :
    (fminScalar s ys).length = ys.length := by
  simp [fminScalar]

theorem eq_of_getD : ∀ l1 l2 : List ℚ, l1.length = l2.length →
    (∀ i, l1.getD i 0 = l2.getD i 0) → l1 = l2
  | [], [], _, _ => rfl
  | x :: l1, y :: l2, hlen, h => by
    have hx : x = y := h 0
    have ht := eq_of_getD l1 l2 (by simpa using hlen) fun i => h (i + 1)
    rw [hx, ht]

theorem getD_nonneg_of (l : List ℚ) (i : ℕ) (h : ∀ y ∈ l, 0 ≤ y) :
    0 ≤ l.getD i 0 := by
  rw [List.getD_eq_getElem?_getD]
  rcases h' : l[i]? with _ | y
  · norm_num
  · exact h y (List.getElem?_mem h')

theorem getD_le_one_of (l : List ℚ) (i : ℕ) (h : ∀ y ∈ l, y ≤ 1) :
    l.getD i 0 ≤ 1 := by
  rw [List.getD_eq_getElem?_getD]
  rcases h' : l[i]? with _ | y
  · norm_num
  · exact h y (List.getElem?_mem h')

theorem mem_trimf_nonneg (xs : List ℚ) (a b c : ℚ) :
    ∀ y ∈ trimf xs a b c, 0 ≤ y := by
  intro y hy
  rcases List.mem_map.mp hy with ⟨x, _, rfl⟩
  exact trimfVal_nonneg a b c x

theorem mem_trimf_le_one (xs : List ℚ) (a b c : ℚ) :
    ∀ y ∈ trimf xs a b c, y ≤ 1 := by
  intro y hy
  rcases List.mem_map.mp hy with ⟨x, _, rfl⟩
  exact trimfVal_le_one a b c x

theorem getD_fminScalar_of_le (s : ℚ) (ys : List ℚ) (i : ℕ)
    (h : ys.length ≤ i) : (fminScalar s ys).getD i 0 = 0 := by
  rw [List.getD_eq_getElem?_getD,
    List.getElem?_eq_none (by rwa [fminScalar_length])]
  rfl

theorem aggregate_zero_one_zero (n : ℕ) (lo md hi : List ℚ)
    (hmdlen : md.length = n)
    (hlo : ∀ y ∈ lo, 0 ≤ y) (hhi : ∀ y ∈ hi, 0 ≤ y)
    (hmd0 : ∀ y ∈ md, 0 ≤ y) (hmd1 : ∀ y ∈ md, y ≤ 1) :
    aggregate n [fminScalar 0 lo, fminScalar 1 md, fminScalar 0 hi] = md := by
  apply eq_of_getD
  · rw [aggregate_length, hmdlen]
  · intro i
    by_cases h : i < n
    · rw [aggregate_getD n _ i h]
      simp only [List.map_cons, List.map_nil, List.foldr_cons, List.foldr_nil]
      have h1 : (fminScalar 0 lo).getD i 0 = 0 := by
        rcases lt_or_le i lo.length with hl | hl
        · rw [getD_fminScalar _ _ _ hl, fmin,
            if_pos (getD_nonneg_of lo i hlo)]
        · exact getD_fminScalar_of_le 0 lo i hl
      have h3 : (fminScalar 0 hi).getD i 0 = 0 := by
        rcases lt_or_le i hi.length with hl | hl
        · rw [getD_fminScalar _ _ _ hl, fmin,
            if_pos (getD_nonneg_of hi i hhi)]
        · exact getD_fminScalar_of_le 0 hi i hl
      have h2 : (fminScalar 1 md).getD i 0 = md.getD i 0 := by
        have hl : i < md.length := hmdlen ▸ h
        rw [getD_fminScalar _ _ _ hl, fmin]
        split_ifs with hc
        · exact le_antisymm hc (getD_le_one_of md i hmd1)
        · rfl
      rw [h1, h2, h3, fmax_eq_max, fmax_eq_max, fmax_eq_max]
      have hm0 : 0 ≤ md.getD i 0 := getD_nonneg_of md i hmd0
      rw [max_self, max_eq_left hm0, max_eq_right hm0]
    · push_neg at h
      rw [List.getD_eq_getElem?_getD,
        List.getElem?_eq_none (by rwa [aggregate_length]),
        List.getD_eq_getElem?_getD,
        List.getElem?_eq_none (by rwa [hmdlen])]

/-- C6: aggregation for a consequent variable is the pointwise maximum of
the rules' activation curves — every activation curve is below the
aggregated curve, the aggregated curve is the least such bound — and it
is monotonic: prepending one more rule's activation curve never
decreases the aggregated value at any universe point. -/
theorem C6_aggregation_pointwise_max (n : ℕ) (curves : List (List ℚ))
    (c : List ℚ) (i : ℕ) (h : i < n) :
    (∀ cv ∈ curves, cv.getD i 0 ≤ (aggregate n curves).getD i 0) ∧
    (∀ b : ℚ, 0 ≤ b → (∀ cv ∈ curves, cv.getD i 0 ≤ b) →
      (aggregate n curves).getD i 0 ≤ b) ∧
    (aggregate n curves).getD i 0 ≤ (aggregate n (c :: curves)).getD i 0 := by
  rw [aggregate_getD n curves i h, aggregate_getD n (c :: curves) i h]
  refine ⟨?_, ?_, ?_⟩
  · intro cv hcv
    exact le_foldr_fmax _ _ (List.mem_map_of_mem _ hcv)
  · intro b hb hub
    apply foldr_fmax_le _ b hb
    intro a ha
    rcases List.mem_map.mp ha with ⟨cv, hcv, rfl⟩
    exact hub cv hcv
  · rw [List.map_cons, List.foldr_cons, fmax_eq_max]
    exact le_max_right _ _

/-- C6 witness: the aggregation characterization applied at a concrete
two-point universe with one stored curve and one added curve, index 0. -/
theorem C6_aggregation_pointwise_max_witness :
    0 < 2 ∧
    ((∀ cv ∈ [[(1:ℚ)/2, 1]], cv.getD 0 0 ≤ (aggregate 2 [[(1:ℚ)/2, 1]]).getD 0 0) ∧
     (∀ b : ℚ, 0 ≤ b → (∀ cv ∈ [[(1:ℚ)/2, 1]], cv.getD 0 0 ≤ b) →
       (aggregate 2 [[(1:ℚ)/2, 1]]).getD 0 0 ≤ b) ∧
     (aggregate 2 [[(1:ℚ)/2, 1]]).getD 0 0 ≤
       (aggregate 2 ([(1:ℚ)/4, 0] :: [[(1:ℚ)/2, 1]])).getD 0 0) :=
  ⟨by norm_num,
   C6_aggregation_pointwise_max 2 [[(1:ℚ)/2, 1]] [(1:ℚ)/4, 0] 0 (by norm_num)⟩

theorem qual_lo_5 : qual_lo 5 = 0 := by
  norm_num [qual_lo, quality_range, quality_low, trimf, trimfVal, interp_membership]

theorem qual_md_5 : qual_md 5 = 1 := by
  norm_num [qual_md, quality_range, quality_medium, trimf, trimfVal, interp_membership]

theorem qual_hi_5 : qual_hi 5 = 0 := by
  norm_num [qual_hi, quality_range, quality_high, trimf, trimfVal, interp_membership]

theorem serv_lo_5 : serv_lo 5 = 0 := by
  norm_num [serv_lo, service_range, service_low, trimf, trimfVal, interp_membership]

theorem serv_md_5 : serv_md 5 = 1 := by
  norm_num [serv_md, service_range, service_medium, trimf, trimfVal, interp_membership]

theorem serv_hi_5 : serv_hi 5 = 0 := by
  norm_num [serv_hi, service_range, service_high, trimf, trimfVal, interp_membership]

theorem tip_medium_eq : tip_medium =
    [0, 1/13, 2/13, 3/13, 4/13, 5/13, 6/13, 7/13, 8/13, 9/13, 10/13, 11/13,
     12/13, 1, 11/12, 5/6, 3/4, 2/3, 7/12, 1/2, 5/12, 1/3, 1/4, 1/6, 1/12, 0] := by
  norm_num [tip_medium, trimf, tip_range, trimfVal]

theorem str1_5 : firingStrength (tippingEnv 5 5) rule1 = 0 := by
  show 1 * fmax (qual_lo 5) (serv_lo 5) = 0
  rw [qual_lo_5, serv_lo_5]
  norm_num [fmax]

theorem str2_5 : firingStrength (tippingEnv 5 5) rule2 = 1 := by
  show 1 * serv_md 5 = 1
  rw [serv_md_5]
  norm_num

theorem str3_5 : firingStrength (tippingEnv 5 5) rule3 = 0 := by
  show 1 * fmax (serv_hi 5) (qual_hi 5) = 0
  rw [serv_hi_5, qual_hi_5]
  norm_num [fmax]

theorem aggregatedTip_5_5 : aggregatedTip 5 5 = tip_medium := by
  have hact1 : ruleActivation (tippingEnv 5 5) tipCurves rule1 = fminScalar 0 tip_low := by
    show fminScalar (firingStrength (tippingEnv 5 5) rule1) tip_low = fminScalar 0 tip_low
    rw [str1_5]
  have hact2 : ruleActivation (tippingEnv 5 5) tipCurves rule2 = fminScalar 1 tip_medium := by
    show fminScalar (firingStrength (tippingEnv 5 5) rule2) tip_medium = fminScalar 1 tip_medium
    rw [str2_5]
  have hact3 : ruleActivation (tippingEnv 5 5) tipCurves rule3 = fminScalar 0 tip_high := by
    show fminScalar (firingStrength (tippingEnv 5 5) rule3) tip_high = fminScalar 0 tip_high
    rw [str3_5]
  rw [aggregatedTip, tippingRules]
  simp only [List.map_cons, List.map_nil]
  rw [hact1, hact2, hact3]
  exact aggregate_zero_one_zero 26 tip_low tip_medium tip_high tip_medium_length
    (mem_trimf_nonneg tip_range 0 0 13) (mem_trimf_nonneg tip_range 13 25 25)
    (mem_trimf_nonneg tip_range 0 13 25) (mem_trimf_le_one tip_range 0 13 25)

theorem centroid_tip_medium : centroid tip_range tip_medium = 38/3 := by
  rw [centroid, tip_medium_eq, tip_range]
  norm_num [List.zipWith, List.sum_cons, List.sum_nil]

theorem computeTip_5_5 : computeTip 5 5 = 38/3 := by
  rw [computeTip, aggregatedTip_5_5]
  exact centroid_tip_medium

/-- C1 (amended): for the reference configuration and crisp inputs
quality = 5, service = 5, the engine yields fuzzified degrees
quality_medium = 1 and quality_low = quality_high = 0 (same for
service), rule firing strengths 0, 1, 0 — both on the manual path and on
the rule-object path — and an aggregated output curve equal to
tip_medium's sampled curve.  The defuzzified tip, however, is exactly
38/3 ≈ 12.67, not ≈ 13.0: the tip_medium triangle [0, 13, 25] is not
symmetric about its apex (13 wide on the left, 12 on the right), so the
centroid sits left of 13 (see the counterexample). -/
theorem C1_reference_scenario_amended :
    qual_lo 5 = 0 ∧ qual_md 5 = 1 ∧ qual_hi 5 = 0 ∧
    serv_lo 5 = 0 ∧ serv_md 5 = 1 ∧ serv_hi 5 = 0 ∧
    active_rule1 5 5 = 0 ∧ serv_md 5 = 1 ∧ active_rule3 5 5 = 0 ∧
    firingStrength (tippingEnv 5 5) rule1 = 0 ∧
    firingStrength (tippingEnv 5 5) rule2 = 1 ∧
    firingStrength (tippingEnv 5 5) rule3 = 0 ∧
    aggregatedTip 5 5 = tip_medium ∧
    computeTip 5 5 = 38/3 := by
  refine ⟨qual_lo_5, qual_md_5, qual_hi_5, serv_lo_5, serv_md_5, serv_hi_5,
    ?_, serv_md_5, ?_, str1_5, str2_5, str3_5, aggregatedTip_5_5, computeTip_5_5⟩
  · rw [active_rule1, qual_lo_5, serv_lo_5]
    norm_num [fmax]
  · rw [active_rule3, qual_hi_5, serv_hi_5]
    norm_num [fmax]

/-- C1 counterexample: the claim's final conjunct "defuzzified tip
≈ 13.0 (centroid of symmetric triangle at apex 13)" is false at the
claimed input (5, 5): the computed tip is exactly 38/3, which differs
from 13 by 1/3, because tip_medium = [0, 13, 25] is not a symmetric
triangle. -/
theorem C1_defuzzified_not_13 :
    computeTip 5 5 = 38/3 ∧ |computeTip 5 5 - 13| = 1/3 ∧ computeTip 5 5 ≠ 13 := by
  refine ⟨computeTip_5_5, ?_, ?_⟩
  · rw [computeTip_5_5]
    norm_num [abs_of_nonpos]
  · rw [computeTip_5_5]
    norm_num

theorem sum_map_range (f : ℕ → ℚ) : ∀ n : ℕ,
    ((List.range n).map f).sum = ∑ i in Finset.range n, f i
  | 0 => by simp
  | n + 1 => by
    rw [List.range_succ, List.map_append, List.sum_append,
      Finset.sum_range_succ, sum_map_range f n]
    simp

theorem zipWith_mul_map (f g : ℕ → ℚ) : ∀ l : List ℕ,
    List.zipWith (fun a b => a * b) (l.map f) (l.map g) =
      l.map (fun i => f i * g i)
  | [] => rfl
  | x :: l => by
    rw [List.map_cons, List.map_cons, List.zipWith_cons_cons,
      zipWith_mul_map f g l, List.map_cons]

theorem centroid_unitUniverse (x0 : ℚ) (n : ℕ) (g : ℚ → ℚ) :
    centroid (unitUniverse x0 n) ((unitUniverse x0 n).map g) =
      (∑ i in Finset.range n, (x0 + (i:ℚ)) * g (x0 + (i:ℚ))) /
      (∑ i in Finset.range n, g (x0 + (i:ℚ))) := by
  rw [centroid, unitUniverse, List.map_map,
    show ((g ∘ fun i : ℕ => x0 + (i:ℚ))) = (fun i : ℕ => g (x0 + (i:ℚ))) from rfl,
    zipWith_mul_map (fun i : ℕ => x0 + (i:ℚ)) (fun i : ℕ => g (x0 + (i:ℚ))),
    sum_map_range, sum_map_range]

theorem trimfVal_left_ramp (x0 W t : ℚ) (hW : 0 < W) (h0 : 0 ≤ t) (ht : t < W) :
    trimfVal x0 (x0 + W) (x0 + 2*W) (x0 + t) = t / W := by
  unfold trimfVal
  rw [if_neg (by intro h; have h' := add_left_cancel h; linarith),
    if_pos (by linarith)]
  by_cases h : 0 < t
  · rw [if_pos (by linarith)]
    have h1 : x0 + t - x0 = t := by ring
    have h2 : x0 + W - x0 = W := by ring
    rw [h1, h2]
  · have ht0 : t = 0 := le_antisymm (not_lt.mp h) h0
    rw [if_neg (by rw [ht0]; intro hc; linarith), ht0, zero_div]

theorem trimfVal_right_ramp (x0 W t : ℚ) (hW : 0 < W) (h0 : 0 ≤ t) (ht : t < W) :
    trimfVal x0 (x0 + W) (x0 + 2*W) (x0 + (2*W - t)) = t / W := by
  unfold trimfVal
  rw [if_neg (by intro h; have h' := add_left_cancel h; linarith),
    if_neg (by intro hc; linarith)]
  by_cases h : 0 < t
  · rw [if_pos (by linarith)]
    have h1 : x0 + 2*W - (x0 + (2*W - t)) = t := by ring
    have h2 : x0 + 2*W - (x0 + W) = W := by ring
    rw [h1, h2]
  · have ht0 : t = 0 := le_antisymm (not_lt.mp h) h0
    rw [if_neg (by rw [ht0]; intro hc; linarith), ht0, zero_div]

theorem trimfVal_symm (w : ℕ) (hw : 0 < w) (x0 : ℚ) (i : ℕ) (hi : i ≤ 2*w) :
    trimfVal x0 (x0 + (w:ℚ)) (x0 + 2*(w:ℚ)) (x0 + ((2*w - i : ℕ):ℚ)) =
    trimfVal x0 (x0 + (w:ℚ)) (x0 + 2*(w:ℚ)) (x0 + (i:ℚ)) := by
  have hW : (0:ℚ) < w := by exact_mod_cast hw
  have hcast : ((2*w - i : ℕ):ℚ) = 2*(w:ℚ) - i := by
    rw [Nat.cast_sub hi]
    push_cast
    ring
  rcases lt_trichotomy i w with h | h | h
  · have hIW : (i:ℚ) < w := by exact_mod_cast h
    have h0 : (0:ℚ) ≤ i := Nat.cast_nonneg i
    rw [hcast]
    exact (trimfVal_right_ramp x0 w i hW h0 hIW).trans
      (trimfVal_left_ramp x0 w i hW h0 hIW).symm
  · rw [h, show 2*w - w = w from by omega]
  · have hI : (w:ℚ) < i := by exact_mod_cast h
    have hI2 : (i:ℚ) ≤ 2*w := by exact_mod_cast hi
    have h0t : (0:ℚ) ≤ 2*(w:ℚ) - i := by linarith
    have htW : 2*(w:ℚ) - i < w := by linarith
    rw [hcast, show x0 + (i:ℚ) = x0 + (2*(w:ℚ) - (2*(w:ℚ) - i)) from by ring]
    exact (trimfVal_left_ramp x0 w _ hW h0t htW).trans
      (trimfVal_right_ramp x0 w _ hW h0t htW).symm

theorem sum_sym_zero (w : ℕ) (hw : 0 < w) (x0 : ℚ) :
    ∑ i in Finset.range (2*w+1),
      ((i:ℚ) - w) * trimfVal x0 (x0 + (w:ℚ)) (x0 + 2*(w:ℚ)) (x0 + (i:ℚ)) = 0 := by
  set f : ℕ → ℚ :=
    fun i => ((i:ℚ) - w) * trimfVal x0 (x0 + (w:ℚ)) (x0 + 2*(w:ℚ)) (x0 + (i:ℚ)) with hf
  have hrefl : ∑ i in Finset.range (2*w+1), f (2*w+1-1-i) =
      ∑ i in Finset.range (2*w+1), f i := Finset.sum_range_reflect f (2*w+1)
  have hkey : ∀ i ∈ Finset.range (2*w+1), f (2*w - i) + f i = 0 := by
    intro i hi
    have hi' : i ≤ 2*w := by
      have := Finset.mem_range.mp hi
      omega
    have hcast : ((2*w - i : ℕ):ℚ) = 2*(w:ℚ) - i := by
      rw [Nat.cast_sub hi']
      push_cast
      ring
    rw [hf]
    simp only
    rw [trimfVal_symm w hw x0 i hi', hcast]
    ring
  have h2 : (∑ i in Finset.range (2*w+1), f i) +
      (∑ i in Finset.range (2*w+1), f i) = 0 := by
    nth_rewrite 1 [← hrefl]
    rw [← Finset.sum_add_distrib]
    apply Finset.sum_eq_zero
    intro i hi
    rw [show 2*w+1-1-i = 2*w-i from by omega]
    exact hkey i hi
  linarith

theorem sum_mu_pos (w : ℕ) (hw : 0 < w) (x0 : ℚ) :
    0 < ∑ i in Finset.range (2*w+1),
      trimfVal x0 (x0 + (w:ℚ)) (x0 + 2*(w:ℚ)) (x0 + (i:ℚ)) := by
  have hmem : w ∈ Finset.range (2*w+1) := Finset.mem_range.mpr (by omega)
  have hle := Finset.single_le_sum
    (f := fun i : ℕ => trimfVal x0 (x0 + (w:ℚ)) (x0 + 2*(w:ℚ)) (x0 + (i:ℚ)))
    (fun i _ => trimfVal_nonneg _ _ _ _) hmem
  have h1 : (1:ℚ) ≤ ∑ i in Finset.range (2*w+1),
      trimfVal x0 (x0 + (w:ℚ)) (x0 + 2*(w:ℚ)) (x0 + (i:ℚ)) := by
    simpa [trimfVal_apex] using hle
  linarith

/-- C7 (amended): centroid defuzzification is the discrete weighted
average Σ(x·μ(x))/Σ(μ(x)) over the universe samples (the `centroid`
definition), and for a triangular activation curve that is genuinely
symmetric — apex b, equal half-widths w, sampled on the unit-step
universe covering [b−w, b+w] — it returns the apex.  The claim's
reference instance is wrong, however: tip_medium = [0, 13, 25] has
half-widths 13 and 12, is not symmetric, and its centroid is 38/3, not
the apex 13 (see the counterexample). -/
theorem C7_centroid_symmetric_apex_amended (w : ℕ) (x0 : ℚ) (hw : 0 < w) :
    centroid (unitUniverse x0 (2*w+1))
      (trimf (unitUniverse x0 (2*w+1)) x0 (x0 + (w:ℚ)) (x0 + 2*(w:ℚ))) =
      x0 + (w:ℚ) := by
  rw [show trimf (unitUniverse x0 (2*w+1)) x0 (x0 + (w:ℚ)) (x0 + 2*(w:ℚ)) =
      (unitUniverse x0 (2*w+1)).map (trimfVal x0 (x0 + (w:ℚ)) (x0 + 2*(w:ℚ)))
      from rfl]
  rw [centroid_unitUniverse]
  have hS := sum_sym_zero w hw x0
  have hT := sum_mu_pos w hw x0
  have hsplit : ∀ i ∈ Finset.range (2*w+1),
      (x0 + (i:ℚ)) * trimfVal x0 (x0 + (w:ℚ)) (x0 + 2*(w:ℚ)) (x0 + (i:ℚ)) =
      ((i:ℚ) - w) * trimfVal x0 (x0 + (w:ℚ)) (x0 + 2*(w:ℚ)) (x0 + (i:ℚ)) +
      (x0 + (w:ℚ)) * trimfVal x0 (x0 + (w:ℚ)) (x0 + 2*(w:ℚ)) (x0 + (i:ℚ)) := by
    intro i _
    ring
  rw [Finset.sum_congr rfl hsplit, Finset.sum_add_distrib, hS, zero_add,
    ← Finset.mul_sum, mul_div_assoc, div_self (ne_of_gt hT), mul_one]

/-- C7 counterexample: the claim's reference instance fails — tip_medium
is the triangle [0, 13, 25], whose half-widths 13 and 12 differ (it is
not symmetric), and its centroid over the tip universe is 38/3, not the
apex 13. -/
theorem C7_reference_curve_not_apex :
    centroid tip_range tip_medium = 38/3 ∧ (38:ℚ)/3 ≠ 13 ∧
    (13:ℚ) - 0 ≠ 25 - 13 :=
  ⟨centroid_tip_medium, by norm_num, by norm_num⟩

/-- C7 witness: the amended symmetric-centroid theorem at the concrete
symmetric triangle with apex 1 and half-width 1 on universe [0, 1, 2]. -/
theorem C7_centroid_symmetric_apex_witness :
    0 < 1 ∧
    centroid (unitUniverse 0 (2*1+1))
      (trimf (unitUniverse 0 (2*1+1)) 0 (0 + ((1:ℕ):ℚ)) (0 + 2*((1:ℕ):ℚ))) =
      0 + ((1:ℕ):ℚ) :=
  ⟨by norm_num, C7_centroid_symmetric_apex_amended 1 0 (by norm_num)⟩

theorem str1_ge (q s : ℚ) : serv_lo s ≤ firingStrength (tippingEnv q s) rule1 := by
  show serv_lo s ≤ 1 * fmax (qual_lo q) (serv_lo s)
  rw [one_mul, fmax_eq_max]
  exact le_max_right _ _

theorem str2_eq (q s : ℚ) : firingStrength (tippingEnv q s) rule2 = serv_md s := by
  show 1 * serv_md s = serv_md s
  rw [one_mul]

theorem str3_ge (q s : ℚ) : serv_hi s ≤ firingStrength (tippingEnv q s) rule3 := by
  show serv_hi s ≤ 1 * fmax (serv_hi s) (qual_hi q)
  rw [one_mul, fmax_eq_max]
  exact le_max_left _ _

theorem tip_low_length : tip_low.length = 26 := by
  rw [tip_low, trimf, List.length_map, tip_range]
  rfl

theorem tip_high_length : tip_high.length = 26 := by
  rw [tip_high, trimf, List.length_map, tip_range]
  rfl

theorem tip_low_getD_0 : tip_low.getD 0 0 = 1 := by
  rw [show tip_low.getD 0 0 = trimfVal 0 0 13 0 from rfl]
  exact trimfVal_apex 0 0 13

theorem tip_medium_getD_13 : tip_medium.getD 13 0 = 1 := by
  rw [show tip_medium.getD 13 0 = trimfVal 0 13 25 13 from rfl]
  exact trimfVal_apex 0 13 25

theorem tip_high_getD_25 : tip_high.getD 25 0 = 1 := by
  rw [show tip_high.getD 25 0 = trimfVal 13 25 25 25 from rfl]
  exact trimfVal_apex 13 25 25

theorem agg_getD_ge_rule (q s : ℚ) (r : Rule) (hr : r ∈ tippingRules)
    (i : ℕ) (hi : i < 26) :
    (ruleActivation (tippingEnv q s) tipCurves r).getD i 0 ≤
      (aggregatedTip q s).getD i 0 := by
  rw [aggregatedTip, aggregate_getD 26 _ i hi]
  exact le_foldr_fmax _ _
    (List.mem_map_of_mem _ (List.mem_map_of_mem _ hr))

theorem fmin_pos (a b : ℚ) (ha : 0 < a) (hb : 0 < b) : 0 < fmin a b := by
  unfold fmin
  split_ifs <;> assumption

theorem sum_nonneg_list : ∀ l : List ℚ, (∀ y ∈ l, 0 ≤ y) → 0 ≤ l.sum
  | [], _ => by simp
  | x :: l, h => by
    rw [List.sum_cons]
    have h1 := sum_nonneg_list l fun y hy => h y (List.mem_cons_of_mem x hy)
    have h2 := h x (List.mem_cons_self x l)
    linarith

theorem getD_le_sum : ∀ (l : List ℚ), (∀ y ∈ l, 0 ≤ y) → ∀ i : ℕ,
    l.getD i 0 ≤ l.sum
  | [], _, i => by simp
  | x :: l, h, 0 => by
    rw [List.getD_cons_zero, List.sum_cons]
    have := sum_nonneg_list l fun y hy => h y (List.mem_cons_of_mem x hy)
    linarith
  | x :: l, h, i + 1 => by
    rw [List.getD_cons_succ, List.sum_cons]
    have h1 := getD_le_sum l (fun y hy => h y (List.mem_cons_of_mem x hy)) i
    have h2 := h x (List.mem_cons_self x l)
    linarith

theorem mem_aggregate_nonneg (n : ℕ) (curves : List (List ℚ)) :
    ∀ y ∈ aggregate n curves, 0 ≤ y := by
  intro y hy
  rcases List.mem_map.mp hy with ⟨i, _, rfl⟩
  exact foldr_fmax_nonneg _

theorem agg_sum_pos (q s : ℚ) (i : ℕ)
    (hpos : 0 < (aggregatedTip q s).getD i 0) : 0 < (aggregatedTip q s).sum :=
  lt_of_lt_of_le hpos (getD_le_sum _ (mem_aggregate_nonneg 26 _) i)

theorem agg_pos_r1 (q s : ℚ) (h : 0 < serv_lo s) :
    0 < (aggregatedTip q s).getD 0 0 := by
  have h1 : 0 < firingStrength (tippingEnv q s) rule1 :=
    lt_of_lt_of_le h (str1_ge q s)
  have h2 : (ruleActivation (tippingEnv q s) tipCurves rule1).getD 0 0 =
      fmin (firingStrength (tippingEnv q s) rule1) (tip_low.getD 0 0) :=
    getD_fminScalar _ _ _ (by show (0:ℕ) < tip_low.length; rw [tip_low_length]; norm_num)
  have h4 : 0 < (ruleActivation (tippingEnv q s) tipCurves rule1).getD 0 0 := by
    rw [h2, tip_low_getD_0]
    exact fmin_pos _ _ h1 one_pos
  exact lt_of_lt_of_le h4
    (agg_getD_ge_rule q s rule1 (by simp [tippingRules]) 0 (by norm_num))

theorem agg_pos_r2 (q s : ℚ) (h : 0 < serv_md s) :
    0 < (aggregatedTip q s).getD 13 0 := by
  have h1 : 0 < firingStrength (tippingEnv q s) rule2 := by
    rw [str2_eq]
    exact h
  have h2 : (ruleActivation (tippingEnv q s) tipCurves rule2).getD 13 0 =
      fmin (firingStrength (tippingEnv q s) rule2) (tip_medium.getD 13 0) :=
    getD_fminScalar _ _ _ (by show (13:ℕ) < tip_medium.length; rw [tip_medium_length]; norm_num)
  have h4 : 0 < (ruleActivation (tippingEnv q s) tipCurves rule2).getD 13 0 := by
    rw [h2, tip_medium_getD_13]
    exact fmin_pos _ _ h1 one_pos
  exact lt_of_lt_of_le h4
    (agg_getD_ge_rule q s rule2 (by simp [tippingRules]) 13 (by norm_num))

theorem agg_pos_r3 (q s : ℚ) (h : 0 < serv_hi s) :
    0 < (aggregatedTip q s).getD 25 0 := by
  have h1 : 0 < firingStrength (tippingEnv q s) rule3 :=
    lt_of_lt_of_le h (str3_ge q s)
  have h2 : (ruleActivation (tippingEnv q s) tipCurves rule3).getD 25 0 =
      fmin (firingStrength (tippingEnv q s) rule3) (tip_high.getD 25 0) :=
    getD_fminScalar _ _ _ (by show (25:ℕ) < tip_high.length; rw [tip_high_length]; norm_num)
  have h4 : 0 < (ruleActivation (tippingEnv q s) tipCurves rule3).getD 25 0 := by
    rw [h2, tip_high_getD_25]
    exact fmin_pos _ _ h1 one_pos
  exact lt_of_lt_of_le h4
    (agg_getD_ge_rule q s rule3 (by simp [tippingRules]) 25 (by norm_num))

theorem C10_case_lo (q s : ℚ) (h : (1:ℚ)/2 ≤ serv_lo s) :
    (1:ℚ)/2 ≤ max (active_rule1 q s) (max (serv_md s) (active_rule3 q s)) ∧
    (∃ i : ℕ, i < 26 ∧ 0 < (aggregatedTip q s).getD i 0) ∧
    0 < (aggregatedTip q s).sum := by
  have hpt : 0 < (aggregatedTip q s).getD 0 0 := agg_pos_r1 q s (by linarith)
  refine ⟨?_, ⟨0, by norm_num, hpt⟩, agg_sum_pos q s 0 hpt⟩
  have h1 : serv_lo s ≤ active_rule1 q s := by
    rw [active_rule1, fmax_eq_max]
    exact le_max_right _ _
  exact le_trans (le_trans h h1) (le_max_left _ _)

theorem C10_case_md (q s : ℚ) (h : (1:ℚ)/2 ≤ serv_md s) :
    (1:ℚ)/2 ≤ max (active_rule1 q s) (max (serv_md s) (active_rule3 q s)) ∧
    (∃ i : ℕ, i < 26 ∧ 0 < (aggregatedTip q s).getD i 0) ∧
    0 < (aggregatedTip q s).sum := by
  have hpt : 0 < (aggregatedTip q s).getD 13 0 := agg_pos_r2 q s (by linarith)
  refine ⟨?_, ⟨13, by norm_num, hpt⟩, agg_sum_pos q s 13 hpt⟩
  exact le_trans h (le_max_of_le_right (le_max_left _ _))

theorem C10_case_hi (q s : ℚ) (h : (1:ℚ)/2 ≤ serv_hi s) :
    (1:ℚ)/2 ≤ max (active_rule1 q s) (max (serv_md s) (active_rule3 q s)) ∧
    (∃ i : ℕ, i < 26 ∧ 0 < (aggregatedTip q s).getD i 0) ∧
    0 < (aggregatedTip q s).sum := by
  have hpt : 0 < (aggregatedTip q s).getD 25 0 := agg_pos_r3 q s (by linarith)
  refine ⟨?_, ⟨25, by norm_num, hpt⟩, agg_sum_pos q s 25 hpt⟩
  have h1 : serv_hi s ≤ active_rule3 q s := by
    rw [active_rule3, fmax_eq_max]
    exact le_max_right _ _
  exact le_trans (le_trans h h1) (le_max_of_le_right (le_max_right _ _))

/-- C10: for every integer slider input pair in [0,10] × [0,10], the
service degrees partition — service_low + service_medium = 1 for
service ≤ 5 and service_medium + service_high = 1 for service ≥ 5 — so
the largest of the three rule firing strengths is at least 1/2, the
aggregated output curve is positive somewhere (never identically zero),
and its sum is positive, making the no-activation failure case of
centroid defuzzification unreachable. -/
theorem C10_some_rule_fires (q s : ℕ) (hq : q ≤ 10) (hs : s ≤ 10) :
    ((s:ℚ) ≤ 5 → serv_lo s + serv_md s = 1) ∧
    (5 ≤ (s:ℚ) → serv_md s + serv_hi s = 1) ∧
    ((1:ℚ)/2 ≤ max (active_rule1 q s) (max (serv_md s) (active_rule3 q s)) ∧
     (∃ i : ℕ, i < 26 ∧ 0 < (aggregatedTip q s).getD i 0) ∧
     0 < (aggregatedTip q s).sum) := by
  interval_cases s
  · have hlo : serv_lo ((0:ℕ):ℚ) = 1 := by
      norm_num [serv_lo, service_range, service_low, trimf, trimfVal, interp_membership]
    have hmd : serv_md ((0:ℕ):ℚ) = 0 := by
      norm_num [serv_md, service_range, service_medium, trimf, trimfVal, interp_membership]
    refine ⟨fun _ => by rw [hlo, hmd]; norm_num, fun hcon => by norm_num at hcon,
      C10_case_lo _ _ (by rw [hlo]; norm_num)⟩
  · have hlo : serv_lo ((1:ℕ):ℚ) = 4/5 := by
      norm_num [serv_lo, service_range, service_low, trimf, trimfVal, interp_membership]
    have hmd : serv_md ((1:ℕ):ℚ) = 1/5 := by
      norm_num [serv_md, service_range, service_medium, trimf, trimfVal, interp_membership]
    refine ⟨fun _ => by rw [hlo, hmd]; norm_num, fun hcon => by norm_num at hcon,
      C10_case_lo _ _ (by rw [hlo]; norm_num)⟩
  · have hlo : serv_lo ((2:ℕ):ℚ) = 3/5 := by
      norm_num [serv_lo, service_range, service_low, trimf, trimfVal, interp_membership]
    have hmd : serv_md ((2:ℕ):ℚ) = 2/5 := by
      norm_num [serv_md, service_range, service_medium, trimf, trimfVal, interp_membership]
    refine ⟨fun _ => by rw [hlo, hmd]; norm_num, fun hcon => by norm_num at hcon,
      C10_case_lo _ _ (by rw [hlo]; norm_num)⟩
  · have hlo : serv_lo ((3:ℕ):ℚ) = 2/5 := by
      norm_num [serv_lo, service_range, service_low, trimf, trimfVal, interp_membership]
    have hmd : serv_md ((3:ℕ):ℚ) = 3/5 := by
      norm_num [serv_md, service_range, service_medium, trimf, trimfVal, interp_membership]
    refine ⟨fun _ => by rw [hlo, hmd]; norm_num, fun hcon => by norm_num at hcon,
      C10_case_md _ _ (by rw [hmd]; norm_num)⟩
  · have hlo : serv_lo ((4:ℕ):ℚ) = 1/5 := by
      norm_num [serv_lo, service_range, service_low, trimf, trimfVal, interp_membership]
    have hmd : serv_md ((4:ℕ):ℚ) = 4/5 := by
      norm_num [serv_md, service_range, service_medium, trimf, trimfVal, interp_membership]
    refine ⟨fun _ => by rw [hlo, hmd]; norm_num, fun hcon => by norm_num at hcon,
      C10_case_md _ _ (by rw [hmd]; norm_num)⟩
  · have hlo : serv_lo ((5:ℕ):ℚ) = 0 := by
      norm_num [serv_lo, service_range, service_low, trimf, trimfVal, interp_membership]
    have hmd : serv_md ((5:ℕ):ℚ) = 1 := by
      norm_num [serv_md, service_range, service_medium, trimf, trimfVal, interp_membership]
    have hhi : serv_hi ((5:ℕ):ℚ) = 0 := by
      norm_num [serv_hi, service_range, service_high, trimf, trimfVal, interp_membership]
    refine ⟨fun _ => by rw [hlo, hmd]; norm_num, fun _ => by rw [hmd, hhi]; norm_num,
      C10_case_md _ _ (by rw [hmd]; norm_num)⟩
  · have hmd : serv_md ((6:ℕ):ℚ) = 4/5 := by
      norm_num [serv_md, service_range, service_medium, trimf, trimfVal, interp_membership]
    have hhi : serv_hi ((6:ℕ):ℚ) = 1/5 := by
      norm_num [serv_hi, service_range, service_high, trimf, trimfVal, interp_membership]
    refine ⟨fun hcon => by norm_num at hcon, fun _ => by rw [hmd, hhi]; norm_num,
      C10_case_md _ _ (by rw [hmd]; norm_num)⟩
  · have hmd : serv_md ((7:ℕ):ℚ) = 3/5 := by
      norm_num [serv_md, service_range, service_medium, trimf, trimfVal, interp_membership]
    have hhi : serv_hi ((7:ℕ):ℚ) = 2/5 := by
      norm_num [serv_hi, service_range, service_high, trimf, trimfVal, interp_membership]
    refine ⟨fun hcon => by norm_num at hcon, fun _ => by rw [hmd, hhi]; norm_num,
      C10_case_md _ _ (by rw [hmd]; norm_num)⟩
  · have hmd : serv_md ((8:ℕ):ℚ) = 2/5 := by
      norm_num [serv_md, service_range, service_medium, trimf, trimfVal, interp_membership]
    have hhi : serv_hi ((8:ℕ):ℚ) = 3/5 := by
      norm_num [serv_hi, service_range, service_high, trimf, trimfVal, interp_membership]
    refine ⟨fun hcon => by norm_num at hcon, fun _ => by rw [hmd, hhi]; norm_num,
      C10_case_hi _ _ (by rw [hhi]; norm_num)⟩
  · have hmd : serv_md ((9:ℕ):ℚ) = 1/5 := by
      norm_num [serv_md, service_range, service_medium, trimf, trimfVal, interp_membership]
    have hhi : serv_hi ((9:ℕ):ℚ) = 4/5 := by
      norm_num [serv_hi, service_range, service_high, trimf, trimfVal, interp_membership]
    refine ⟨fun hcon => by norm_num at hcon, fun _ => by rw [hmd, hhi]; norm_num,
      C10_case_hi _ _ (by rw [hhi]; norm_num)⟩
  · have hmd : serv_md ((10:ℕ):ℚ) = 0 := by
      norm_num [serv_md, service_range, service_medium, trimf, trimfVal, interp_membership]
    have hhi : serv_hi ((10:ℕ):ℚ) = 1 := by
      norm_num [serv_hi, service_range, service_high, trimf, trimfVal, interp_membership]
    refine ⟨fun hcon => by norm_num at hcon, fun _ => by rw [hmd, hhi]; norm_num,
      C10_case_hi _ _ (by rw [hhi]; norm_num)⟩

/-- C10 witness: the statement applied at the concrete slider inputs
quality = 5, service = 5. -/
theorem C10_some_rule_fires_witness :
    (5:ℕ) ≤ 10 ∧
    ((((5:ℕ):ℚ) ≤ 5 → serv_lo ((5:ℕ):ℚ) + serv_md ((5:ℕ):ℚ) = 1) ∧
     (5 ≤ ((5:ℕ):ℚ) → serv_md ((5:ℕ):ℚ) + serv_hi ((5:ℕ):ℚ) = 1) ∧
     ((1:ℚ)/2 ≤ max (active_rule1 ((5:ℕ):ℚ) ((5:ℕ):ℚ))
        (max (serv_md ((5:ℕ):ℚ)) (active_rule3 ((5:ℕ):ℚ) ((5:ℕ):ℚ))) ∧
      (∃ i : ℕ, i < 26 ∧ 0 < (aggregatedTip ((5:ℕ):ℚ) ((5:ℕ):ℚ)).getD i 0) ∧
      0 < (aggregatedTip ((5:ℕ):ℚ) ((5:ℕ):ℚ)).sum)) :=
  ⟨by norm_num, C10_some_rule_fires 5 5 (by norm_num) (by norm_num)⟩

end FuzzyTips
